import Mathlib

/-!
# backbone.hoard: the sync-wrapping strategy helpers

A shallow embedding of `src/strategy-helpers.js`.

The helpers are effectful JavaScript: they build closures over mutable objects
(`model`, `options`), call collaborators that are handed in (`context.policy`,
`context.store`, `context.trigger`, `model.sync`, the caller's continuations) and
may be interrupted by an exception raised by any of them.  The embedding makes
all of this explicit:

* objects are references into a `World` (a heap of model attributes and of
  `options` objects);
* closures are first-order data (`Callback`), run by `Callback.call`;
* every call made by the helpers to a collaborator is appended to a trace of
  `Effect`s before the collaborator runs;
* a computation returns either a value or a raised JavaScript value, together
  with the state reached (`M`).
-/

namespace Hoard

/-! ## Data model -/

/-- JavaScript values passed around by the helpers (responses, metadata, raised values). -/
inductive Val where
  | undefined
  | bool (b : Bool)
  | num (n : Int)
  | str (s : String)
  | ref (r : Nat)
  deriving DecidableEq, Repr

/-- Reference to a mutable JavaScript object. -/
abbrev Ref := Nat

/-- Cache keys are strings (spec §3). -/
abbrev CacheKey := String

/-- The operation kind handed to `sync`, such as "read". -/
abbrev Method := String

/-- The object literal built in `storeResponse`: data and meta. -/
structure Entry where
  data : Val
  meta : Val
  deriving DecidableEq, Repr

/-- Modelled from the spec: the value returned by `Store.set` and `Store.invalidate`
(§4.2, `-> Future<void>`); the store itself is not part of `strategy-helpers.js`.
A failed write is a rejected future. -/
inductive Future where
  | pending
  | fulfilled
  | rejected (reason : Val)
  deriving DecidableEq, Repr

/-- Function values that can sit in `options.success` / `options.error`.

* `absent`: the field is `undefined` (falsy);
* `ext f`: a function supplied by the caller, identified by `f`;
* `successWrapper`: the closure `_.wrap(options.success, function (onSuccess, response) ...)`
  returned by `wrapSuccessWithCache`, with its captured variables;
* `errorWrapper`: the closure returned by `wrapErrorWithInvalidate`. -/
inductive Callback where
  | absent
  | ext (f : Nat)
  | successWrapper (context : Ref) (method : Method) (model : Ref) (options : Ref)
      (onSuccess : Callback)
  | errorWrapper (context : Ref) (method : Method) (model : Ref) (options : Ref)
      (onError : Callback)
  deriving DecidableEq, Repr

/-- JavaScript truthiness of a callback field: `if (onSuccess)`. -/
def Callback.truthy : Callback → Bool
  | .absent => false
  | _ => true

/-- What a caller may have put in `options.success` / `options.error`:
nothing, or a function of its own. -/
def Callback.ofCaller : Option Nat → Callback
  | none => .absent
  | some f => .ext f

/-- An `options` object: the two continuation fields and all remaining fields. -/
structure Options where
  success : Callback
  error : Callback
  rest : List (String × Val)
  deriving DecidableEq, Repr

/-- The mutable heap: attributes of model objects and contents of options objects. -/
structure World where
  models : Ref → List (String × Val)
  options : Ref → Options

/-- The assignment `options.success = c` on the object at `options`. -/
def World.setSuccess (w : World) (options : Ref) (c : Callback) : World :=
  { w with
    options := fun r => if r = options then { w.options r with success := c } else w.options r }

/-- The assignment of an attribute list to the model object at `model` (as `model.set` does). -/
def World.setModel (w : World) (model : Ref) (attrs : List (String × Val)) : World :=
  { w with models := fun r => if r = model then attrs else w.models r }

/-- Calls made by the helpers to their collaborators, with the arguments passed. -/
inductive Effect where
  | call (f : Nat) (args : List Val)
  | getKey (context : Ref) (model : Ref) (method : Method)
  | getMetadata (context : Ref) (key : CacheKey) (response : Val) (options : Ref)
  | storeSet (context : Ref) (key : CacheKey) (entry : Entry)
  | storeInvalidate (context : Ref) (key : CacheKey)
  | trigger (context : Ref) (event : String) (args : List Val)
  | sync (receiver : Ref) (method : Method) (model : Ref) (options : Ref)
  deriving DecidableEq, Repr

def Effect.isCall : Effect → Bool
  | .call _ _ => true
  | _ => false

def Effect.isGetMetadata : Effect → Bool
  | .getMetadata _ _ _ _ => true
  | _ => false

def Effect.isStoreSet : Effect → Bool
  | .storeSet _ _ _ => true
  | _ => false

def Effect.isStoreInvalidate : Effect → Bool
  | .storeInvalidate _ _ => true
  | _ => false

def Effect.isTrigger : Effect → Bool
  | .trigger _ _ _ => true
  | _ => false

def Effect.isSync : Effect → Bool
  | .sync _ _ _ _ => true
  | _ => false

/-- Outcome of a collaborator: a returned value or a raised one, and the heap it leaves. -/
abbrev Outcome (α : Type) := Except Val α × World

/-- The object `context.policy`. -/
structure Policy where
  getKey : Ref → Method → World → Outcome CacheKey
  getMetadata : CacheKey → Val → Ref → World → Outcome Val

/-- The object `context.store`. -/
structure Store where
  set : CacheKey → Entry → World → Outcome Future
  invalidate : CacheKey → World → Outcome Future

/-- The object `context` (the `this` of the proxy methods). -/
structure Context where
  policy : Policy
  store : Store
  trigger : String → List Val → World → Outcome Val

/-- Behaviour of everything the helpers call but do not define. -/
structure Env where
  context : Ref → Context
  extCall : Nat → List Val → World → Outcome Val
  modelSync : Ref → Method → Ref → Ref → World → Outcome Val

/-- Machine state: the heap and the trace of collaborator calls made so far. -/
structure State where
  world : World
  trace : List Effect

/-- Computations of the helpers: state in, value or raised value and state out. -/
def M (α : Type) : Type := State → Except Val α × State

instance : Monad M where
  pure a := fun s => (.ok a, s)
  bind m f := fun s =>
    match m s with
    | (.ok a, s1) => f a s1
    | (.error e, s1) => (.error e, s1)

/-- Run a computation from a state. -/
def M.run {α : Type} (m : M α) (s : State) : Except Val α × State := m s

/-- Record a collaborator call. -/
def log (e : Effect) : M Unit := fun s => (.ok (), { s with trace := s.trace ++ [e] })

/-- Let a collaborator run on the heap. -/
def external {α : Type} (f : World → Outcome α) : M α :=
  fun s => ((f s.world).1, { s with world := (f s.world).2 })

/-- Read a field-holding object: `options.success`, `options.error`. -/
def readOptions (options : Ref) : M Options := fun s => (.ok (s.world.options options), s)

/-- The statement `options.success = c`. -/
def assignSuccess (options : Ref) (c : Callback) : M Unit :=
  fun s => (.ok (), { s with world := s.world.setSuccess options c })

/-- Raise a JavaScript value. -/
def raise {α : Type} (e : Val) : M α := fun s => (.error e, s)

/-! ## Collaborator calls -/

def policyGetKey (env : Env) (context model : Ref) (method : Method) : M CacheKey := do
  log (.getKey context model method)
  external ((env.context context).policy.getKey model method)

def policyGetMetadata (env : Env) (context : Ref) (key : CacheKey) (response : Val)
    (options : Ref) : M Val := do
  log (.getMetadata context key response options)
  external ((env.context context).policy.getMetadata key response options)

def storeSet (env : Env) (context : Ref) (key : CacheKey) (entry : Entry) : M Future := do
  log (.storeSet context key entry)
  external ((env.context context).store.set key entry)

def storeInvalidate (env : Env) (context : Ref) (key : CacheKey) : M Future := do
  log (.storeInvalidate context key)
  external ((env.context context).store.invalidate key)

def trigger (env : Env) (context : Ref) (event : String) (args : List Val) : M Val := do
  log (.trigger context event args)
  external ((env.context context).trigger event args)

def modelSync (env : Env) (receiver : Ref) (method : Method) (model options : Ref) : M Val := do
  log (.sync receiver method model options)
  external (env.modelSync receiver method model options)

/-! ## The helpers of `strategy-helpers.js` -/

def getSyncSuccessEvent (key : CacheKey) : String := "sync:success:" ++ key

def getSyncErrorEvent (key : CacheKey) : String := "sync:error:" ++ key

def storeResponse (env : Env) (context : Ref) (key : CacheKey) (response : Val)
    (options : Ref) : M Unit := do
  let meta ← policyGetMetadata env context key response options
  let entry : Entry := { data := response, meta := meta }
  let _ ← storeSet env context key entry
  let _ ← trigger env context (getSyncSuccessEvent key) [response]
  pure ()

/-- Calling a function value with an argument list.

For the two wrappers this is `_.wrap(func, wrapper)`, whose result calls
`wrapper(func, arg0, arg1, ...)`: the wrapper's parameter `response` is the first
argument (or `undefined`), further arguments are not bound to anything, and the
wrapper returns `undefined`. -/
def Callback.call (env : Env) : Callback → List Val → M Val
  | .absent, _ => raise (.str "TypeError: undefined is not a function")
  | .ext f, args => do
      log (.call f args)
      external (env.extCall f args)
  | .successWrapper context method model options onSuccess, args => do
      let response := args.headD Val.undefined
      if onSuccess.truthy then
        let _ ← Callback.call env onSuccess [response]
      let key ← policyGetKey env context model method
      storeResponse env context key response options
      pure Val.undefined
  | .errorWrapper context method model _options onError, args => do
      let response := args.headD Val.undefined
      if onError.truthy then
        let _ ← Callback.call env onError [response]
      let key ← policyGetKey env context model method
      let _ ← storeInvalidate env context key
      let _ ← trigger env context (getSyncErrorEvent key) []
      pure Val.undefined

def wrapSuccessWithCache (context : Ref) (method : Method) (model options : Ref) : M Callback := do
  let o ← readOptions options
  pure (.successWrapper context method model options o.success)

def wrapErrorWithInvalidate (context : Ref) (method : Method) (model options : Ref) :
    M Callback := do
  let o ← readOptions options
  pure (.errorWrapper context method model options o.error)

def cacheSuccess (env : Env) (context : Ref) (method : Method) (model options : Ref) : M Val := do
  let w ← wrapSuccessWithCache context method model options
  assignSuccess options w
  let r ← modelSync env model method model options
  pure r

/-! The exported methods pass their receiver (`this`) as the context. -/

def proxyWrapSuccessWithCache (self : Ref) (method : Method) (model options : Ref) : M Callback :=
  wrapSuccessWithCache self method model options

def proxyWrapErrorWithInvalidate (self : Ref) (method : Method) (model options : Ref) :
    M Callback :=
  wrapErrorWithInvalidate self method model options

def proxyCacheSuccess (env : Env) (self : Ref) (method : Method) (model options : Ref) : M Val :=
  cacheSuccess env self method model options

/-! ## Vocabulary for the statements -/

/-- The callback that `wrapSuccessWithCache` returns when it is called in state `s`. -/
def wrappedSuccess (context : Ref) (method : Method) (model options : Ref) (s : State) : Callback :=
  match (wrapSuccessWithCache context method model options).run s with
  | (.ok cb, _) => cb
  | (.error _, _) => .absent

/-- The callback that `wrapErrorWithInvalidate` returns when it is called in state `s`. -/
def wrappedError (context : Ref) (method : Method) (model options : Ref) (s : State) : Callback :=
  match (wrapErrorWithInvalidate context method model options).run s with
  | (.ok cb, _) => cb
  | (.error _, _) => .absent

/-- What the caller's own continuation does when it is invoked, if there is one. -/
def callerOutcome (env : Env) (orig : Option Nat) (args : List Val) (w : World) : Outcome Val :=
  match orig with
  | some f => env.extCall f args w
  | none => (.ok .undefined, w)

/-- The call to the caller's own continuation, if there is one. -/
def callerEffects (orig : Option Nat) (args : List Val) : List Effect :=
  match orig with
  | some f => [.call f args]
  | none => []

/-- The effects a run adds to the trace it started from. -/
def added (before after : State) : List Effect := after.trace.drop before.trace.length

/-! ## Sample collaborators

The policy of the integration tests keys a model by its url, here
"/value-plus-one/" followed by the model's `value` attribute. -/

def urlPolicy : Policy where
  getKey := fun model _ w =>
    match (w.models model).lookup "value" with
    | some (.str v) => (.ok ("/value-plus-one/" ++ v), w)
    | _ => (.error (.str "A url property or function must be specified"), w)
  getMetadata := fun _ response _ w =>
    match response with
    | .undefined => (.error (.str "no response"), w)
    | _ => (.ok (.num 0), w)

/-- Collaborators that all return normally; the store reports success. -/
def demoEnv : Env where
  context := fun _ =>
    { policy := urlPolicy
      store :=
        { set := fun _ _ w => (.ok .fulfilled, w)
          invalidate := fun _ w => (.ok .fulfilled, w) }
      trigger := fun _ _ w => (.ok (.ref 0), w) }
  extCall := fun _ _ w => (.ok .undefined, w)
  modelSync := fun _ _ _ _ w => (.ok (.ref 99), w)

/-- As `demoEnv`, with a store whose writes fail asynchronously: `set` returns a
rejected future. -/
def rejectingEnv : Env where
  context := fun _ =>
    { policy := urlPolicy
      store :=
        { set := fun _ _ w => (.ok (.rejected (.str "QuotaExceededError")), w)
          invalidate := fun _ w => (.ok .fulfilled, w) }
      trigger := fun _ _ w => (.ok (.ref 0), w) }
  extCall := fun _ _ w => (.ok .undefined, w)
  modelSync := fun _ _ _ _ w => (.ok (.ref 99), w)

/-- As `demoEnv`, with a store whose `set` raises synchronously. -/
def throwingEnv : Env where
  context := fun _ =>
    { policy := urlPolicy
      store :=
        { set := fun _ _ w => (.error (.str "QuotaExceededError"), w)
          invalidate := fun _ w => (.ok .fulfilled, w) }
      trigger := fun _ _ w => (.ok (.ref 0), w) }
  extCall := fun _ _ w => (.ok .undefined, w)
  modelSync := fun _ _ _ _ w => (.ok (.ref 99), w)

/-- As `demoEnv`, with caller continuations that raise when they are called. -/
def raisingCallerEnv : Env where
  context := fun _ =>
    { policy := urlPolicy
      store :=
        { set := fun _ _ w => (.ok .fulfilled, w)
          invalidate := fun _ w => (.ok .fulfilled, w) }
      trigger := fun _ _ w => (.ok (.ref 0), w) }
  extCall := fun _ _ w => (.error (.str "continuation failed"), w)
  modelSync := fun _ _ _ _ w => (.ok (.ref 99), w)

/-- One model whose `value` is "1" and one options object with both continuations. -/
def demoWorld : World where
  models := fun _ => [("value", .str "1")]
  options := fun _ => { success := .ext 7, error := .ext 8, rest := [("parse", .bool true)] }

/-- A model without a `value`: `urlPolicy.getKey` raises on it. -/
def noUrlWorld : World where
  models := fun _ => []
  options := fun _ => { success := .ext 7, error := .ext 8, rest := [] }

def demoState : State := { world := demoWorld, trace := [] }

def noUrlState : State := { world := noUrlWorld, trace := [] }

/-- The state right after `cacheSuccess` has dispatched a read for the model of
`demoState`: `options.success` now holds the caching wrapper. -/
def dispatchedState : State := ((cacheSuccess demoEnv 0 "read" 0 0).run demoState).2

/-- The model is changed while the read is in flight: `value` becomes "2". -/
def mutatedState : State :=
  { dispatchedState with world := dispatchedState.world.setModel 0 [("value", .str "2")] }

/-! ## Unfolding lemmas -/

theorem run_bind {α β : Type} (m : M α) (f : α → M β) (s : State) :
    (m >>= f) s = match m s with
      | (.ok a, s1) => f a s1
      | (.error e, s1) => (.error e, s1) := rfl

theorem run_pure {α : Type} (a : α) (s : State) : (pure a : M α) s = (.ok a, s) := rfl

theorem wrappedSuccess_eq (context : Ref) (method : Method) (model options : Ref) (s : State) :
    wrappedSuccess context method model options s =
      .successWrapper context method model options (s.world.options options).success := rfl

theorem wrappedError_eq (context : Ref) (method : Method) (model options : Ref) (s : State) :
    wrappedError context method model options s =
      .errorWrapper context method model options (s.world.options options).error := rfl

theorem added_append (s t : State) (l : List Effect) (h : t.trace = s.trace ++ l) :
    added s t = l := by
  simp [added, h]

/-- The four steps of `storeResponse`, by the outcome of each collaborator. -/
theorem storeResponse_run (env : Env) (context : Ref) (key : CacheKey) (response : Val)
    (options : Ref) (s : State) :
    storeResponse env context key response options s =
      match (env.context context).policy.getMetadata key response options s.world with
      | (.error e, w1) =>
        (.error e, ⟨w1, s.trace ++ [.getMetadata context key response options]⟩)
      | (.ok m, w1) =>
        match (env.context context).store.set key ⟨response, m⟩ w1 with
        | (.error e, w2) =>
          (.error e, ⟨w2, s.trace ++ [.getMetadata context key response options,
            .storeSet context key ⟨response, m⟩]⟩)
        | (.ok _, w2) =>
          match (env.context context).trigger (getSyncSuccessEvent key) [response] w2 with
          | (.error e, w3) =>
            (.error e, ⟨w3, s.trace ++ [.getMetadata context key response options,
              .storeSet context key ⟨response, m⟩,
              .trigger context (getSyncSuccessEvent key) [response]]⟩)
          | (.ok _, w3) =>
            (.ok (), ⟨w3, s.trace ++ [.getMetadata context key response options,
              .storeSet context key ⟨response, m⟩,
              .trigger context (getSyncSuccessEvent key) [response]]⟩) := by
  simp only [storeResponse, run_bind, policyGetMetadata, storeSet, trigger, log, external,
    run_pure]
  rcases h1 : (env.context context).policy.getMetadata key response options s.world with ⟨r1, w1⟩
  cases r1 with
  | error e => simp [h1]
  | ok m =>
    simp only [h1]
    rcases h2 : (env.context context).store.set key ⟨response, m⟩ w1 with ⟨r2, w2⟩
    cases r2 with
    | error e => simp [h2]
    | ok fut =>
      simp only [h2]
      rcases h3 : (env.context context).trigger (getSyncSuccessEvent key) [response] w2
        with ⟨r3, w3⟩
      cases r3 <;> simp [h3]

/-- The success wrapper around a caller-supplied or absent continuation, step by step. -/
theorem successWrapper_run (env : Env) (context : Ref) (method : Method) (model options : Ref)
    (orig : Option Nat) (args : List Val) (s : State) :
    (Callback.call env (.successWrapper context method model options (Callback.ofCaller orig))
        args).run s =
      match callerOutcome env orig [args.headD .undefined] s.world with
      | (.error e, w1) => (.error e, ⟨w1, s.trace ++ callerEffects orig [args.headD .undefined]⟩)
      | (.ok _, w1) =>
        match (env.context context).policy.getKey model method w1 with
        | (.error e, w2) =>
          (.error e, ⟨w2, s.trace ++ callerEffects orig [args.headD .undefined] ++
            [.getKey context model method]⟩)
        | (.ok key, w2) =>
          match storeResponse env context key (args.headD .undefined) options
              ⟨w2, s.trace ++ callerEffects orig [args.headD .undefined] ++
                [.getKey context model method]⟩ with
          | (.error e, s3) => (.error e, s3)
          | (.ok _, s3) => (.ok .undefined, s3) := by
  cases orig with
  | none =>
    simp only [Callback.ofCaller, Callback.call, Callback.truthy, M.run, Bool.false_eq_true,
      if_false, run_bind, run_pure, callerOutcome, callerEffects, policyGetKey, log, external,
      List.append_nil]
    rcases (env.context context).policy.getKey model method s.world with ⟨_ | key, w2⟩
    · rfl
    · simp only []
      split <;> rename_i h <;> simp only [h]
  | some f =>
    simp only [Callback.ofCaller, Callback.call, Callback.truthy, M.run, if_true, run_bind,
      run_pure, callerOutcome, callerEffects, policyGetKey, log, external]
    rcases env.extCall f [args.headD .undefined] s.world with ⟨_ | v, w1⟩
    · rfl
    · simp only []
      rcases (env.context context).policy.getKey model method w1 with ⟨_ | key, w2⟩
      · rfl
      · simp only []
        split <;> rename_i h <;> simp only [h]

/-- The error wrapper around a caller-supplied or absent continuation, step by step. -/
theorem errorWrapper_run (env : Env) (context : Ref) (method : Method) (model options : Ref)
    (orig : Option Nat) (args : List Val) (s : State) :
    (Callback.call env (.errorWrapper context method model options (Callback.ofCaller orig))
        args).run s =
      match callerOutcome env orig [args.headD .undefined] s.world with
      | (.error e, w1) => (.error e, ⟨w1, s.trace ++ callerEffects orig [args.headD .undefined]⟩)
      | (.ok _, w1) =>
        match (env.context context).policy.getKey model method w1 with
        | (.error e, w2) =>
          (.error e, ⟨w2, s.trace ++ callerEffects orig [args.headD .undefined] ++
            [.getKey context model method]⟩)
        | (.ok key, w2) =>
          match (env.context context).store.invalidate key w2 with
          | (.error e, w3) =>
            (.error e, ⟨w3, s.trace ++ callerEffects orig [args.headD .undefined] ++
              [.getKey context model method, .storeInvalidate context key]⟩)
          | (.ok _, w3) =>
            match (env.context context).trigger (getSyncErrorEvent key) [] w3 with
            | (.error e, w4) =>
              (.error e, ⟨w4, s.trace ++ callerEffects orig [args.headD .undefined] ++
                [.getKey context model method, .storeInvalidate context key,
                  .trigger context (getSyncErrorEvent key) []]⟩)
            | (.ok _, w4) =>
              (.ok .undefined, ⟨w4, s.trace ++ callerEffects orig [args.headD .undefined] ++
                [.getKey context model method, .storeInvalidate context key,
                  .trigger context (getSyncErrorEvent key) []]⟩) := by
  cases orig with
  | none =>
    simp only [Callback.ofCaller, Callback.call, Callback.truthy, M.run, Bool.false_eq_true,
      if_false, run_bind, run_pure, callerOutcome, callerEffects, policyGetKey, storeInvalidate,
      trigger, log, external, List.append_nil]
    rcases (env.context context).policy.getKey model method s.world with ⟨_ | key, w2⟩
    · rfl
    · simp only []
      rcases (env.context context).store.invalidate key w2 with ⟨_ | fut, w3⟩
      · simp
      · simp only []
        rcases (env.context context).trigger (getSyncErrorEvent key) [] w3 with ⟨_ | v, w4⟩ <;>
          simp
  | some f =>
    simp only [Callback.ofCaller, Callback.call, Callback.truthy, M.run, if_true, run_bind,
      run_pure, callerOutcome, callerEffects, policyGetKey, storeInvalidate, trigger, log,
      external]
    rcases env.extCall f [args.headD .undefined] s.world with ⟨_ | v0, w1⟩
    · rfl
    · simp only []
      rcases (env.context context).policy.getKey model method w1 with ⟨_ | key, w2⟩
      · rfl
      · simp only []
        rcases (env.context context).store.invalidate key w2 with ⟨_ | fut, w3⟩
        · simp
        · simp only []
          rcases (env.context context).trigger (getSyncErrorEvent key) [] w3 with ⟨_ | v, w4⟩ <;>
            simp

/-- The run of `cacheSuccess`: one assignment to `options.success`, then `model.sync`. -/
theorem cacheSuccess_run (env : Env) (context : Ref) (method : Method) (model options : Ref)
    (s : State) :
    (cacheSuccess env context method model options).run s =
      ((env.modelSync model method model options
          (s.world.setSuccess options (wrappedSuccess context method model options s))).1,
        ⟨(env.modelSync model method model options
          (s.world.setSuccess options (wrappedSuccess context method model options s))).2,
          s.trace ++ [.sync model method model options]⟩) := by
  simp only [cacheSuccess, wrapSuccessWithCache, readOptions, assignSuccess, modelSync, log,
    external, M.run, run_bind, run_pure, wrappedSuccess_eq]
  rcases env.modelSync model method model options
    (s.world.setSuccess options
      (.successWrapper context method model options (s.world.options options).success))
    with ⟨_ | v, w⟩ <;> rfl

/-! ## The success path -/

/-- C1: the callback built by `wrapSuccessWithCache` around a caller's success
continuation `f`, invoked with a response, first calls `f` with that response, then
`policy.getKey`, then `policy.getMetadata`, then `store.set`, and last triggers the
sync-success event, provided the policy and store calls return normally.  Nothing comes
before the call to `f`; if `f` itself raises, nothing comes after it either. -/
theorem wrapSuccessWithCache_effect_order
    (env : Env) (context : Ref) (method : Method) (model options : Ref) (f : Nat)
    (s0 : State) (response : Val) (rest : List Val) (s : State)
    (r0 : Except Val Val) (w1 w2 w3 w4 : World) (key : CacheKey) (m : Val) (fut : Future)
    (hsucc : (s0.world.options options).success = .ext f)
    (h0 : env.extCall f [response] s.world = (r0, w1))
    (hkey : (env.context context).policy.getKey model method w1 = (.ok key, w2))
    (hmeta : (env.context context).policy.getMetadata key response options w2 = (.ok m, w3))
    (hset : (env.context context).store.set key ⟨response, m⟩ w3 = (.ok fut, w4)) :
    (((wrappedSuccess context method model options s0).call env (response :: rest)).run s).2.trace
      = s.trace ++ Effect.call f [response] ::
          (match r0 with
           | .ok _ =>
             [.getKey context model method,
              .getMetadata context key response options,
              .storeSet context key ⟨response, m⟩,
              .trigger context (getSyncSuccessEvent key) [response]]
           | .error _ => []) := by
  have hrun := successWrapper_run env context method model options (some f) (response :: rest) s
  simp only [Callback.ofCaller, callerOutcome, callerEffects, List.headD_cons, h0] at hrun
  rw [wrappedSuccess_eq, hsucc, hrun]
  cases r0 with
  | error e => simp
  | ok v =>
    simp only [hkey, storeResponse_run, hmeta, hset]
    rcases (env.context context).trigger (getSyncSuccessEvent key) [response] w4
      with ⟨_ | v, w5⟩ <;> simp

theorem wrapSuccessWithCache_effect_order_witness :
    (((wrappedSuccess 0 "read" 0 0 demoState).call demoEnv [.num 2, .str "success"]).run
        demoState).2.trace
      = [.call 7 [.num 2],
         .getKey 0 0 "read",
         .getMetadata 0 "/value-plus-one/1" (.num 2) 0,
         .storeSet 0 "/value-plus-one/1" ⟨.num 2, .num 0⟩,
         .trigger 0 "sync:success:/value-plus-one/1" [.num 2]] :=
  wrapSuccessWithCache_effect_order demoEnv 0 "read" 0 0 7 demoState (.num 2) [.str "success"]
    demoState (.ok .undefined) demoWorld demoWorld demoWorld demoWorld "/value-plus-one/1"
    (.num 0) .fulfilled rfl rfl rfl rfl rfl

/-- C3, as stated, fails when the caller's success continuation raises: the wrapped
success callback then makes no `store.set` call, no `policy.getMetadata` call and emits
no notification, although policy, store and trigger would all return normally. -/
theorem raising_success_continuation_skips_store :
    (((wrappedSuccess 0 "read" 0 0 demoState).call raisingCallerEnv [.num 2]).run demoState).1
      = .error (.str "continuation failed") ∧
    added demoState (((wrappedSuccess 0 "read" 0 0 demoState).call raisingCallerEnv
        [.num 2]).run demoState).2 = [.call 7 [.num 2]] ∧
    (added demoState (((wrappedSuccess 0 "read" 0 0 demoState).call raisingCallerEnv
        [.num 2]).run demoState).2).filter Effect.isStoreSet = [] ∧
    (added demoState (((wrappedSuccess 0 "read" 0 0 demoState).call raisingCallerEnv
        [.num 2]).run demoState).2).filter Effect.isGetMetadata = [] ∧
    (added demoState (((wrappedSuccess 0 "read" 0 0 demoState).call raisingCallerEnv
        [.num 2]).run demoState).2).filter Effect.isTrigger = [] :=
  ⟨rfl, by decide, by decide, by decide, by decide⟩

/-- C3, amended: one invocation of the wrapped success callback, with or without a
caller's continuation, behaves as follows.

* When the continuation (if any), `policy.getKey`, `policy.getMetadata` and `store.set`
  return normally, it makes exactly one `store.set` call, whose key is the key
  `policy.getKey` returned for `(model, method)` and whose entry holds the response
  unchanged as `data` and the value of `policy.getMetadata(key, response, options)` as
  `meta`; `policy.getMetadata` is called exactly once; and the only notification is the
  sync-success event of that key with the response as payload.
* When the continuation raises, the callback fails with the raised value, and makes no
  `store.set` call, no `policy.getMetadata` call and no notification.
* When `store.set` raises, the callback fails with the raised value; `store.set` and
  `policy.getMetadata` have each been called exactly once, with the arguments above, and
  no notification is emitted. -/
theorem wrapped_success_stores_once
    (env : Env) (context : Ref) (method : Method) (model options : Ref) (orig : Option Nat)
    (s0 : State) (response : Val) (rest : List Val) (s : State)
    (hsucc : (s0.world.options options).success = Callback.ofCaller orig) :
    (∀ (v0 : Val) (w1 w2 w3 w4 : World) (key : CacheKey) (m : Val) (fut : Future),
      callerOutcome env orig [response] s.world = (.ok v0, w1) →
      (env.context context).policy.getKey model method w1 = (.ok key, w2) →
      (env.context context).policy.getMetadata key response options w2 = (.ok m, w3) →
      (env.context context).store.set key ⟨response, m⟩ w3 = (.ok fut, w4) →
      added s (((wrappedSuccess context method model options s0).call env
          (response :: rest)).run s).2
        = callerEffects orig [response] ++
            [.getKey context model method,
             .getMetadata context key response options,
             .storeSet context key { data := response, meta := m },
             .trigger context (getSyncSuccessEvent key) [response]] ∧
      (added s (((wrappedSuccess context method model options s0).call env
          (response :: rest)).run s).2).filter Effect.isStoreSet
        = [.storeSet context key { data := response, meta := m }] ∧
      (added s (((wrappedSuccess context method model options s0).call env
          (response :: rest)).run s).2).filter Effect.isGetMetadata
        = [.getMetadata context key response options] ∧
      (added s (((wrappedSuccess context method model options s0).call env
          (response :: rest)).run s).2).filter Effect.isTrigger
        = [.trigger context (getSyncSuccessEvent key) [response]]) ∧
    (∀ (e : Val) (w1 : World),
      callerOutcome env orig [response] s.world = (.error e, w1) →
      (((wrappedSuccess context method model options s0).call env (response :: rest)).run s).1
        = .error e ∧
      (added s (((wrappedSuccess context method model options s0).call env
          (response :: rest)).run s).2).filter Effect.isStoreSet = [] ∧
      (added s (((wrappedSuccess context method model options s0).call env
          (response :: rest)).run s).2).filter Effect.isGetMetadata = [] ∧
      (added s (((wrappedSuccess context method model options s0).call env
          (response :: rest)).run s).2).filter Effect.isTrigger = []) ∧
    (∀ (v0 e : Val) (w1 w2 w3 w4 : World) (key : CacheKey) (m : Val),
      callerOutcome env orig [response] s.world = (.ok v0, w1) →
      (env.context context).policy.getKey model method w1 = (.ok key, w2) →
      (env.context context).policy.getMetadata key response options w2 = (.ok m, w3) →
      (env.context context).store.set key ⟨response, m⟩ w3 = (.error e, w4) →
      (((wrappedSuccess context method model options s0).call env (response :: rest)).run s).1
        = .error e ∧
      (added s (((wrappedSuccess context method model options s0).call env
          (response :: rest)).run s).2).filter Effect.isStoreSet
        = [.storeSet context key { data := response, meta := m }] ∧
      (added s (((wrappedSuccess context method model options s0).call env
          (response :: rest)).run s).2).filter Effect.isGetMetadata
        = [.getMetadata context key response options] ∧
      (added s (((wrappedSuccess context method model options s0).call env
          (response :: rest)).run s).2).filter Effect.isTrigger = []) := by
  have hrun := successWrapper_run env context method model options orig (response :: rest) s
  rw [wrappedSuccess_eq, hsucc]
  refine ⟨?_, ?_, ?_⟩
  · intro v0 w1 w2 w3 w4 key m fut h0 hkey hmeta hset
    simp only [List.headD_cons, h0, hkey, storeResponse_run, hmeta, hset] at hrun
    rw [hrun]
    rcases (env.context context).trigger (getSyncSuccessEvent key) [response] w4
      with ⟨_ | v, w5⟩ <;>
    cases orig <;>
    simp [added, callerEffects, Effect.isStoreSet, Effect.isGetMetadata, Effect.isTrigger]
  · intro e w1 h0
    simp only [List.headD_cons, h0] at hrun
    rw [hrun]
    cases orig <;>
    simp [added, callerEffects, Effect.isStoreSet, Effect.isGetMetadata, Effect.isTrigger]
  · intro v0 e w1 w2 w3 w4 key m h0 hkey hmeta hset
    simp only [List.headD_cons, h0, hkey, storeResponse_run, hmeta, hset] at hrun
    rw [hrun]
    cases orig <;>
    simp [added, callerEffects, Effect.isStoreSet, Effect.isGetMetadata, Effect.isTrigger]

theorem wrapped_success_stores_once_witness :
    (added demoState (((wrappedSuccess 0 "read" 0 0 demoState).call demoEnv
        [.num 2]).run demoState).2
      = [.call 7 [.num 2],
         .getKey 0 0 "read",
         .getMetadata 0 "/value-plus-one/1" (.num 2) 0,
         .storeSet 0 "/value-plus-one/1" { data := .num 2, meta := .num 0 },
         .trigger 0 "sync:success:/value-plus-one/1" [.num 2]] ∧
      (added demoState (((wrappedSuccess 0 "read" 0 0 demoState).call demoEnv
          [.num 2]).run demoState).2).filter Effect.isStoreSet
        = [.storeSet 0 "/value-plus-one/1" { data := .num 2, meta := .num 0 }] ∧
      (added demoState (((wrappedSuccess 0 "read" 0 0 demoState).call demoEnv
          [.num 2]).run demoState).2).filter Effect.isGetMetadata
        = [.getMetadata 0 "/value-plus-one/1" (.num 2) 0] ∧
      (added demoState (((wrappedSuccess 0 "read" 0 0 demoState).call demoEnv
          [.num 2]).run demoState).2).filter Effect.isTrigger
        = [.trigger 0 "sync:success:/value-plus-one/1" [.num 2]]) ∧
    ((((wrappedSuccess 0 "read" 0 0 demoState).call raisingCallerEnv [.num 2]).run
          demoState).1 = .error (.str "continuation failed") ∧
      (added demoState (((wrappedSuccess 0 "read" 0 0 demoState).call raisingCallerEnv
          [.num 2]).run demoState).2).filter Effect.isStoreSet = [] ∧
      (added demoState (((wrappedSuccess 0 "read" 0 0 demoState).call raisingCallerEnv
          [.num 2]).run demoState).2).filter Effect.isGetMetadata = [] ∧
      (added demoState (((wrappedSuccess 0 "read" 0 0 demoState).call raisingCallerEnv
          [.num 2]).run demoState).2).filter Effect.isTrigger = []) ∧
    ((((wrappedSuccess 0 "read" 0 0 demoState).call throwingEnv [.num 2]).run demoState).1
        = .error (.str "QuotaExceededError") ∧
      (added demoState (((wrappedSuccess 0 "read" 0 0 demoState).call throwingEnv
          [.num 2]).run demoState).2).filter Effect.isStoreSet
        = [.storeSet 0 "/value-plus-one/1" { data := .num 2, meta := .num 0 }] ∧
      (added demoState (((wrappedSuccess 0 "read" 0 0 demoState).call throwingEnv
          [.num 2]).run demoState).2).filter Effect.isGetMetadata
        = [.getMetadata 0 "/value-plus-one/1" (.num 2) 0] ∧
      (added demoState (((wrappedSuccess 0 "read" 0 0 demoState).call throwingEnv
          [.num 2]).run demoState).2).filter Effect.isTrigger = []) :=
  ⟨(wrapped_success_stores_once demoEnv 0 "read" 0 0 (some 7) demoState (.num 2) [] demoState
      rfl).1 .undefined demoWorld demoWorld demoWorld demoWorld "/value-plus-one/1" (.num 0)
      .fulfilled rfl rfl rfl rfl,
    (wrapped_success_stores_once raisingCallerEnv 0 "read" 0 0 (some 7) demoState (.num 2) []
      demoState rfl).2.1 (.str "continuation failed") demoWorld rfl,
    (wrapped_success_stores_once throwingEnv 0 "read" 0 0 (some 7) demoState (.num 2) []
      demoState rfl).2.2 .undefined (.str "QuotaExceededError") demoWorld demoWorld demoWorld
      demoWorld "/value-plus-one/1" (.num 0) rfl rfl rfl rfl⟩

/-- C7: when `policy.getKey` or `policy.getMetadata` raises inside the wrapped success
callback, the callback fails with the raised value, `store.set` is not called and no
event is triggered; when `policy.getKey` raises inside the wrapped error callback, the
callback fails with the raised value, `store.invalidate` is not called and no event is
triggered. -/
theorem policy_raise_no_cache_interaction
    (env : Env) (context : Ref) (method : Method) (model options : Ref) (s0 : State) :
    (∀ (orig : Option Nat) (response : Val) (rest : List Val) (s : State) (v0 e : Val)
        (w1 w2 : World),
      (s0.world.options options).success = Callback.ofCaller orig →
      callerOutcome env orig [response] s.world = (.ok v0, w1) →
      (env.context context).policy.getKey model method w1 = (.error e, w2) →
      (((wrappedSuccess context method model options s0).call env (response :: rest)).run s).1
          = .error e ∧
        ∀ x ∈ added s (((wrappedSuccess context method model options s0).call env
            (response :: rest)).run s).2, x.isStoreSet = false ∧ x.isTrigger = false) ∧
    (∀ (orig : Option Nat) (response : Val) (rest : List Val) (s : State) (v0 e : Val)
        (key : CacheKey) (w1 w2 w3 : World),
      (s0.world.options options).success = Callback.ofCaller orig →
      callerOutcome env orig [response] s.world = (.ok v0, w1) →
      (env.context context).policy.getKey model method w1 = (.ok key, w2) →
      (env.context context).policy.getMetadata key response options w2 = (.error e, w3) →
      (((wrappedSuccess context method model options s0).call env (response :: rest)).run s).1
          = .error e ∧
        ∀ x ∈ added s (((wrappedSuccess context method model options s0).call env
            (response :: rest)).run s).2, x.isStoreSet = false ∧ x.isTrigger = false) ∧
    (∀ (orig : Option Nat) (response : Val) (rest : List Val) (s : State) (v0 e : Val)
        (w1 w2 : World),
      (s0.world.options options).error = Callback.ofCaller orig →
      callerOutcome env orig [response] s.world = (.ok v0, w1) →
      (env.context context).policy.getKey model method w1 = (.error e, w2) →
      (((wrappedError context method model options s0).call env (response :: rest)).run s).1
          = .error e ∧
        ∀ x ∈ added s (((wrappedError context method model options s0).call env
            (response :: rest)).run s).2, x.isStoreInvalidate = false ∧ x.isTrigger = false) := by
  refine ⟨?_, ?_, ?_⟩
  · intro orig response rest s v0 e w1 w2 hsucc h0 hkey
    have hrun := successWrapper_run env context method model options orig (response :: rest) s
    simp only [List.headD_cons, h0, hkey] at hrun
    rw [wrappedSuccess_eq, hsucc, hrun]
    cases orig <;>
      simp [added, callerEffects, Effect.isStoreSet, Effect.isTrigger]
  · intro orig response rest s v0 e key w1 w2 w3 hsucc h0 hkey hmeta
    have hrun := successWrapper_run env context method model options orig (response :: rest) s
    simp only [List.headD_cons, h0, hkey, storeResponse_run, hmeta] at hrun
    rw [wrappedSuccess_eq, hsucc, hrun]
    cases orig <;>
      simp [added, callerEffects, Effect.isStoreSet, Effect.isTrigger]
  · intro orig response rest s v0 e w1 w2 herr h0 hkey
    have hrun := errorWrapper_run env context method model options orig (response :: rest) s
    simp only [List.headD_cons, h0, hkey] at hrun
    rw [wrappedError_eq, herr, hrun]
    cases orig <;>
      simp [added, callerEffects, Effect.isStoreInvalidate, Effect.isTrigger]

theorem policy_raise_no_cache_interaction_witness :
    ((((wrappedSuccess 0 "read" 0 0 demoState).call demoEnv [.num 2]).run noUrlState).1
        = .error (.str "A url property or function must be specified") ∧
      ∀ x ∈ added noUrlState (((wrappedSuccess 0 "read" 0 0 demoState).call demoEnv
          [.num 2]).run noUrlState).2, x.isStoreSet = false ∧ x.isTrigger = false) ∧
    ((((wrappedSuccess 0 "read" 0 0 demoState).call demoEnv [.undefined]).run demoState).1
        = .error (.str "no response") ∧
      ∀ x ∈ added demoState (((wrappedSuccess 0 "read" 0 0 demoState).call demoEnv
          [.undefined]).run demoState).2, x.isStoreSet = false ∧ x.isTrigger = false) ∧
    ((((wrappedError 0 "read" 0 0 demoState).call demoEnv [.num 400]).run noUrlState).1
        = .error (.str "A url property or function must be specified") ∧
      ∀ x ∈ added noUrlState (((wrappedError 0 "read" 0 0 demoState).call demoEnv
          [.num 400]).run noUrlState).2,
        x.isStoreInvalidate = false ∧ x.isTrigger = false) :=
  ⟨(policy_raise_no_cache_interaction demoEnv 0 "read" 0 0 demoState).1 (some 7) (.num 2) []
      noUrlState .undefined _ noUrlWorld noUrlWorld rfl rfl rfl,
    (policy_raise_no_cache_interaction demoEnv 0 "read" 0 0 demoState).2.1 (some 7) .undefined []
      demoState .undefined _ "/value-plus-one/1" demoWorld demoWorld demoWorld rfl rfl rfl rfl,
    (policy_raise_no_cache_interaction demoEnv 0 "read" 0 0 demoState).2.2 (some 8) (.num 400) []
      noUrlState .undefined _ noUrlWorld noUrlWorld rfl rfl rfl⟩

/-! ## The error path -/

/-- C2, as stated, fails when the caller's error continuation raises: the wrapped error
callback then calls neither `policy.getKey` nor `store.invalidate` and triggers no event,
although policy, store and trigger would all return normally. -/
theorem raising_error_continuation_skips_invalidate :
    (((wrappedError 0 "read" 0 0 demoState).call raisingCallerEnv [.num 400]).run demoState).1
      = .error (.str "continuation failed") ∧
    added demoState (((wrappedError 0 "read" 0 0 demoState).call raisingCallerEnv
        [.num 400]).run demoState).2 = [.call 8 [.num 400]] ∧
    (added demoState (((wrappedError 0 "read" 0 0 demoState).call raisingCallerEnv
        [.num 400]).run demoState).2).filter Effect.isStoreInvalidate = [] ∧
    (added demoState (((wrappedError 0 "read" 0 0 demoState).call raisingCallerEnv
        [.num 400]).run demoState).2).filter Effect.isTrigger = [] :=
  ⟨rfl, by decide, by decide, by decide⟩

/-- C2, amended: the callback built by `wrapErrorWithInvalidate`, invoked with an error
response, calls the caller's error continuation (when there is one) with the response
first.  When that continuation (if any), `policy.getKey` and `store.invalidate` return
normally, it then calls `policy.getKey(model, method)`, then `store.invalidate` exactly
once with the key obtained, then triggers `getSyncErrorEvent` of that same key, and makes
no other call.  When the continuation raises, the callback fails with the raised value
and the call to the continuation is its only effect: no `store.invalidate`, no event.
`store.set` is called in neither case. -/
theorem wrapErrorWithInvalidate_effects
    (env : Env) (context : Ref) (method : Method) (model options : Ref) (orig : Option Nat)
    (s0 : State) (response : Val) (rest : List Val) (s : State)
    (herr : (s0.world.options options).error = Callback.ofCaller orig) :
    (∀ (v0 : Val) (w1 w2 w3 : World) (key : CacheKey) (fut : Future),
      callerOutcome env orig [response] s.world = (.ok v0, w1) →
      (env.context context).policy.getKey model method w1 = (.ok key, w2) →
      (env.context context).store.invalidate key w2 = (.ok fut, w3) →
      added s (((wrappedError context method model options s0).call env
          (response :: rest)).run s).2
        = callerEffects orig [response] ++
            [.getKey context model method,
             .storeInvalidate context key,
             .trigger context (getSyncErrorEvent key) []] ∧
      (added s (((wrappedError context method model options s0).call env
          (response :: rest)).run s).2).filter Effect.isStoreInvalidate
        = [.storeInvalidate context key] ∧
      (added s (((wrappedError context method model options s0).call env
          (response :: rest)).run s).2).filter Effect.isStoreSet = []) ∧
    (∀ (e : Val) (w1 : World),
      callerOutcome env orig [response] s.world = (.error e, w1) →
      (((wrappedError context method model options s0).call env (response :: rest)).run s).1
        = .error e ∧
      added s (((wrappedError context method model options s0).call env
          (response :: rest)).run s).2 = callerEffects orig [response] ∧
      (added s (((wrappedError context method model options s0).call env
          (response :: rest)).run s).2).filter Effect.isStoreInvalidate = [] ∧
      (added s (((wrappedError context method model options s0).call env
          (response :: rest)).run s).2).filter Effect.isTrigger = [] ∧
      (added s (((wrappedError context method model options s0).call env
          (response :: rest)).run s).2).filter Effect.isStoreSet = []) := by
  have hrun := errorWrapper_run env context method model options orig (response :: rest) s
  rw [wrappedError_eq, herr]
  refine ⟨?_, ?_⟩
  · intro v0 w1 w2 w3 key fut h0 hkey hinv
    simp only [List.headD_cons, h0, hkey, hinv] at hrun
    rw [hrun]
    rcases (env.context context).trigger (getSyncErrorEvent key) [] w3 with ⟨_ | v, w4⟩ <;>
    cases orig <;>
    simp [added, callerEffects, Effect.isStoreInvalidate, Effect.isStoreSet]
  · intro e w1 h0
    simp only [List.headD_cons, h0] at hrun
    rw [hrun]
    cases orig <;>
    simp [added, callerEffects, Effect.isStoreInvalidate, Effect.isStoreSet, Effect.isTrigger]

theorem wrapErrorWithInvalidate_effects_witness :
    (added demoState (((wrappedError 0 "read" 0 0 demoState).call demoEnv
        [.num 400]).run demoState).2
      = [.call 8 [.num 400],
         .getKey 0 0 "read",
         .storeInvalidate 0 "/value-plus-one/1",
         .trigger 0 "sync:error:/value-plus-one/1" []] ∧
      (added demoState (((wrappedError 0 "read" 0 0 demoState).call demoEnv
          [.num 400]).run demoState).2).filter Effect.isStoreInvalidate
        = [.storeInvalidate 0 "/value-plus-one/1"] ∧
      (added demoState (((wrappedError 0 "read" 0 0 demoState).call demoEnv
          [.num 400]).run demoState).2).filter Effect.isStoreSet = []) ∧
    ((((wrappedError 0 "read" 0 0 demoState).call raisingCallerEnv [.num 400]).run
          demoState).1 = .error (.str "continuation failed") ∧
      added demoState (((wrappedError 0 "read" 0 0 demoState).call raisingCallerEnv
          [.num 400]).run demoState).2 = [.call 8 [.num 400]] ∧
      (added demoState (((wrappedError 0 "read" 0 0 demoState).call raisingCallerEnv
          [.num 400]).run demoState).2).filter Effect.isStoreInvalidate = [] ∧
      (added demoState (((wrappedError 0 "read" 0 0 demoState).call raisingCallerEnv
          [.num 400]).run demoState).2).filter Effect.isTrigger = [] ∧
      (added demoState (((wrappedError 0 "read" 0 0 demoState).call raisingCallerEnv
          [.num 400]).run demoState).2).filter Effect.isStoreSet = []) :=
  ⟨(wrapErrorWithInvalidate_effects demoEnv 0 "read" 0 0 (some 8) demoState (.num 400) []
      demoState rfl).1 .undefined demoWorld demoWorld demoWorld "/value-plus-one/1" .fulfilled
      rfl rfl rfl,
    (wrapErrorWithInvalidate_effects raisingCallerEnv 0 "read" 0 0 (some 8) demoState (.num 400)
      [] demoState rfl).2 (.str "continuation failed") demoWorld rfl⟩

/-! ## Failures of the store -/

/-- C6, as stated, fails when `store.set` fails by raising: the raised value leaves the
wrapped success callback. -/
theorem store_set_raise_leaves_wrapped_success :
    ((throwingEnv.context 0).store.set "/value-plus-one/1" ⟨.num 2, .num 0⟩ demoWorld).1
      = .error (.str "QuotaExceededError") ∧
    (((wrappedSuccess 0 "read" 0 0 demoState).call throwingEnv [.num 2]).run demoState).1
      = .error (.str "QuotaExceededError") :=
  ⟨rfl, rfl⟩

/-- C6, amended: a cache-write failure reported through the future that `store.set`
returns (a rejected future) does not reach the caller: the wrapped success callback has
called the caller's success continuation exactly once with the response, has called no
other continuation, still triggers the sync-success event after the `store.set` call,
and returns normally when `trigger` does.  When `store.set` raises instead, the caller's
success continuation has still been called exactly once with the response and no other
continuation has been called, but no event is triggered (`store.set` is the last call
made) and the raised value propagates out of the wrapped callback. -/
theorem store_failure_isolated_when_future_rejects
    (env : Env) (context : Ref) (method : Method) (model options : Ref) (f : Nat)
    (s0 : State) (response : Val) (rest : List Val) (s : State)
    (v0 : Val) (w1 w2 w3 : World) (key : CacheKey) (m : Val)
    (hsucc : (s0.world.options options).success = .ext f)
    (h0 : env.extCall f [response] s.world = (.ok v0, w1))
    (hkey : (env.context context).policy.getKey model method w1 = (.ok key, w2))
    (hmeta : (env.context context).policy.getMetadata key response options w2 = (.ok m, w3)) :
    (∀ (reason v : Val) (w4 w5 : World),
      (env.context context).store.set key ⟨response, m⟩ w3 = (.ok (.rejected reason), w4) →
      (env.context context).trigger (getSyncSuccessEvent key) [response] w4 = (.ok v, w5) →
      (((wrappedSuccess context method model options s0).call env (response :: rest)).run s).1
          = .ok .undefined ∧
        added s (((wrappedSuccess context method model options s0).call env
            (response :: rest)).run s).2
          = [.call f [response],
             .getKey context model method,
             .getMetadata context key response options,
             .storeSet context key ⟨response, m⟩,
             .trigger context (getSyncSuccessEvent key) [response]] ∧
        (added s (((wrappedSuccess context method model options s0).call env
            (response :: rest)).run s).2).filter Effect.isCall = [.call f [response]]) ∧
    (∀ (e : Val) (w4 : World),
      (env.context context).store.set key ⟨response, m⟩ w3 = (.error e, w4) →
      (((wrappedSuccess context method model options s0).call env (response :: rest)).run s).1
          = .error e ∧
        added s (((wrappedSuccess context method model options s0).call env
            (response :: rest)).run s).2
          = [.call f [response],
             .getKey context model method,
             .getMetadata context key response options,
             .storeSet context key ⟨response, m⟩] ∧
        (added s (((wrappedSuccess context method model options s0).call env
            (response :: rest)).run s).2).filter Effect.isTrigger = [] ∧
        (added s (((wrappedSuccess context method model options s0).call env
            (response :: rest)).run s).2).filter Effect.isCall = [.call f [response]]) := by
  have hrun := successWrapper_run env context method model options (some f) (response :: rest) s
  simp only [Callback.ofCaller, callerOutcome, callerEffects, List.headD_cons, h0, hkey,
    storeResponse_run, hmeta] at hrun
  rw [wrappedSuccess_eq, hsucc, hrun]
  constructor
  · intro reason v w4 w5 hset htrig
    simp [hset, htrig, added, Effect.isCall]
  · intro e w4 hset
    simp [hset, added, Effect.isCall, Effect.isTrigger]

theorem store_failure_isolated_when_future_rejects_witness :
    ((((wrappedSuccess 0 "read" 0 0 demoState).call rejectingEnv [.num 2]).run demoState).1
        = .ok .undefined ∧
      added demoState (((wrappedSuccess 0 "read" 0 0 demoState).call rejectingEnv
          [.num 2]).run demoState).2
        = [.call 7 [.num 2],
           .getKey 0 0 "read",
           .getMetadata 0 "/value-plus-one/1" (.num 2) 0,
           .storeSet 0 "/value-plus-one/1" ⟨.num 2, .num 0⟩,
           .trigger 0 "sync:success:/value-plus-one/1" [.num 2]] ∧
      (added demoState (((wrappedSuccess 0 "read" 0 0 demoState).call rejectingEnv
          [.num 2]).run demoState).2).filter Effect.isCall = [.call 7 [.num 2]]) ∧
    ((((wrappedSuccess 0 "read" 0 0 demoState).call throwingEnv [.num 2]).run demoState).1
        = .error (.str "QuotaExceededError") ∧
      added demoState (((wrappedSuccess 0 "read" 0 0 demoState).call throwingEnv
          [.num 2]).run demoState).2
        = [.call 7 [.num 2],
           .getKey 0 0 "read",
           .getMetadata 0 "/value-plus-one/1" (.num 2) 0,
           .storeSet 0 "/value-plus-one/1" ⟨.num 2, .num 0⟩] ∧
      (added demoState (((wrappedSuccess 0 "read" 0 0 demoState).call throwingEnv
          [.num 2]).run demoState).2).filter Effect.isTrigger = [] ∧
      (added demoState (((wrappedSuccess 0 "read" 0 0 demoState).call throwingEnv
          [.num 2]).run demoState).2).filter Effect.isCall = [.call 7 [.num 2]]) :=
  ⟨(store_failure_isolated_when_future_rejects rejectingEnv 0 "read" 0 0 7 demoState (.num 2) []
      demoState .undefined demoWorld demoWorld demoWorld "/value-plus-one/1" (.num 0)
      rfl rfl rfl rfl).1 (.str "QuotaExceededError") (.ref 0) demoWorld demoWorld rfl rfl,
    (store_failure_isolated_when_future_rejects throwingEnv 0 "read" 0 0 7 demoState (.num 2) []
      demoState .undefined demoWorld demoWorld demoWorld "/value-plus-one/1" (.num 0)
      rfl rfl rfl rfl).2 (.str "QuotaExceededError") demoWorld rfl⟩

/-! ## What the caller's continuation sees -/

/-- C8, as stated, fails for an argument list longer than one: invoked with the two
arguments (2, "success"), the wrapped success callback hands its continuation the single
argument 2. -/
theorem wrapped_success_drops_further_arguments :
    (added demoState (((wrappedSuccess 0 "read" 0 0 demoState).call demoEnv
        [.num 2, .str "success"]).run demoState).2).filter Effect.isCall
      = [.call 7 [.num 2]] ∧
    (added demoState (((wrappedSuccess 0 "read" 0 0 demoState).call demoEnv
        [.num 2, .str "success"]).run demoState).2).filter Effect.isCall
      ≠ [.call 7 [.num 2, .str "success"]] := by
  decide

/-- C8, amended: for every caller's success (resp. error) continuation and every list of
arguments with which the wrapped callback is invoked, the continuation is called first
and exactly once, with exactly one argument: the first argument of the invocation
(`undefined` when the list is empty).  Arguments after the first are not passed on. -/
theorem wrapped_calls_original_once_with_first_argument
    (env : Env) (context : Ref) (method : Method) (model options : Ref) (f : Nat)
    (s0 : State) (args : List Val) (s : State) :
    ((s0.world.options options).success = .ext f →
      (added s (((wrappedSuccess context method model options s0).call env args).run s).2).head?
          = some (.call f [args.headD .undefined]) ∧
        (added s (((wrappedSuccess context method model options s0).call env
            args).run s).2).filter Effect.isCall = [.call f [args.headD .undefined]]) ∧
    ((s0.world.options options).error = .ext f →
      (added s (((wrappedError context method model options s0).call env args).run s).2).head?
          = some (.call f [args.headD .undefined]) ∧
        (added s (((wrappedError context method model options s0).call env
            args).run s).2).filter Effect.isCall = [.call f [args.headD .undefined]]) := by
  constructor
  · intro hsucc
    have hrun := successWrapper_run env context method model options (some f) args s
    simp only [Callback.ofCaller, callerOutcome, callerEffects, storeResponse_run] at hrun
    rw [wrappedSuccess_eq, hsucc, hrun]
    rcases env.extCall f [args.headD .undefined] s.world with ⟨_ | v0, w1⟩
    · simp [added, Effect.isCall]
    · simp only []
      rcases (env.context context).policy.getKey model method w1 with ⟨_ | key, w2⟩
      · simp [added, Effect.isCall]
      · simp only []
        rcases (env.context context).policy.getMetadata key (args.headD .undefined) options w2
          with ⟨_ | m, w3⟩
        · simp [added, Effect.isCall]
        · simp only []
          rcases (env.context context).store.set key ⟨args.headD .undefined, m⟩ w3
            with ⟨_ | fut, w4⟩
          · simp [added, Effect.isCall]
          · simp only []
            rcases (env.context context).trigger (getSyncSuccessEvent key)
              [args.headD .undefined] w4 with ⟨_ | v, w5⟩ <;>
            simp [added, Effect.isCall]
  · intro herr
    have hrun := errorWrapper_run env context method model options (some f) args s
    simp only [Callback.ofCaller, callerOutcome, callerEffects] at hrun
    rw [wrappedError_eq, herr, hrun]
    rcases env.extCall f [args.headD .undefined] s.world with ⟨_ | v0, w1⟩
    · simp [added, Effect.isCall]
    · simp only []
      rcases (env.context context).policy.getKey model method w1 with ⟨_ | key, w2⟩
      · simp [added, Effect.isCall]
      · simp only []
        rcases (env.context context).store.invalidate key w2 with ⟨_ | fut, w3⟩
        · simp [added, Effect.isCall]
        · simp only []
          rcases (env.context context).trigger (getSyncErrorEvent key) [] w3
            with ⟨_ | v, w4⟩ <;>
          simp [added, Effect.isCall]

theorem wrapped_calls_original_once_with_first_argument_witness :
    ((added demoState (((wrappedSuccess 0 "read" 0 0 demoState).call demoEnv
          [.num 2, .str "success"]).run demoState).2).head? = some (.call 7 [.num 2]) ∧
      (added demoState (((wrappedSuccess 0 "read" 0 0 demoState).call demoEnv
          [.num 2, .str "success"]).run demoState).2).filter Effect.isCall
        = [.call 7 [.num 2]]) ∧
    ((added demoState (((wrappedError 0 "read" 0 0 demoState).call demoEnv
          []).run demoState).2).head? = some (.call 8 [.undefined]) ∧
      (added demoState (((wrappedError 0 "read" 0 0 demoState).call demoEnv
          []).run demoState).2).filter Effect.isCall = [.call 8 [.undefined]]) :=
  ⟨(wrapped_calls_original_once_with_first_argument demoEnv 0 "read" 0 0 7 demoState
      [.num 2, .str "success"] demoState).1 rfl,
    (wrapped_calls_original_once_with_first_argument demoEnv 0 "read" 0 0 8 demoState
      [] demoState).2 rfl⟩

/-! ## The key of an in-flight read -/

/-- C4 does not hold of the code: the key is computed when the wrapped callback runs,
from the model as it is then.  A read is dispatched by `cacheSuccess` for a model whose key
is "/value-plus-one/1"; the model's `value` is set to "2" before the response arrives; the
response is then stored and announced under "/value-plus-one/2". -/
theorem key_follows_model_mutation :
    ((demoEnv.context 0).policy.getKey 0 "read" demoState.world).1
      = .ok "/value-plus-one/1" ∧
    (mutatedState.world.options 0).success = wrappedSuccess 0 "read" 0 0 demoState ∧
    (added mutatedState (((mutatedState.world.options 0).success.call demoEnv
        [.num 2]).run mutatedState).2).filter (fun e => e.isStoreSet || e.isTrigger)
      = [.storeSet 0 "/value-plus-one/2" ⟨.num 2, .num 0⟩,
         .trigger 0 "sync:success:/value-plus-one/2" [.num 2]] :=
  ⟨rfl, rfl, by decide⟩

/-! ## Event names -/

/-- C5: event names are a per-key namespacing of the cache key: `getSyncSuccessEvent`
and `getSyncErrorEvent` are injective in the key, and no success event name equals an
error event name, whatever the two keys are. -/
theorem event_names_injective_and_disjoint :
    Function.Injective getSyncSuccessEvent ∧
    Function.Injective getSyncErrorEvent ∧
    ∀ k1 k2 : CacheKey, getSyncSuccessEvent k1 ≠ getSyncErrorEvent k2 := by
  refine ⟨?_, ?_, ?_⟩
  · intro a b h
    have hd := congrArg String.data h
    simp only [getSyncSuccessEvent, String.data_append, List.append_cancel_left_eq] at hd
    exact String.ext hd
  · intro a b h
    have hd := congrArg String.data h
    simp only [getSyncErrorEvent, String.data_append, List.append_cancel_left_eq] at hd
    exact String.ext hd
  · intro k1 k2 h
    have hd := congrArg String.data h
    simp [getSyncSuccessEvent, getSyncErrorEvent, String.data_append] at hd

/-! ## `cacheSuccess` -/

/-- C9: `cacheSuccess` calls `model.sync` exactly once, with `(method, model, options)`,
at a moment when `options.success` is the caching wrapper of the success continuation the
caller had put there, and its outcome is the outcome of `model.sync`, unchanged. -/
theorem cacheSuccess_calls_sync_once
    (env : Env) (context : Ref) (method : Method) (model options : Ref) (s : State) :
    added s ((cacheSuccess env context method model options).run s).2
      = [.sync model method model options] ∧
    ((cacheSuccess env context method model options).run s).1
      = (env.modelSync model method model options
          (s.world.setSuccess options (wrappedSuccess context method model options s))).1 ∧
    ((cacheSuccess env context method model options).run s).2.world
      = (env.modelSync model method model options
          (s.world.setSuccess options (wrappedSuccess context method model options s))).2 ∧
    ((s.world.setSuccess options (wrappedSuccess context method model options s)).options
        options).success
      = .successWrapper context method model options (s.world.options options).success := by
  rw [cacheSuccess_run]
  refine ⟨by simp [added], rfl, rfl, ?_⟩
  simp [World.setSuccess, wrappedSuccess_eq]

/-- C10: `cacheSuccess` hands `model.sync` a heap that differs from the one it was called
in only in the `success` field of `options`: `options.error` and every other field of
`options`, every other options object and every model are untouched; what `cacheSuccess`
leaves behind is what `model.sync` leaves of that heap, so when `model.sync` leaves the
heap alone `options` ends with its `success` replaced and nothing else changed.
`wrapSuccessWithCache` and `wrapErrorWithInvalidate` leave the state as it is. -/
theorem cacheSuccess_frame
    (env : Env) (context : Ref) (method : Method) (model options : Ref) (s : State) :
    ((cacheSuccess env context method model options).run s).2.world
      = (env.modelSync model method model options
          (s.world.setSuccess options (wrappedSuccess context method model options s))).2 ∧
    ((s.world.setSuccess options (wrappedSuccess context method model options s)).options
        options).error = (s.world.options options).error ∧
    ((s.world.setSuccess options (wrappedSuccess context method model options s)).options
        options).rest = (s.world.options options).rest ∧
    (∀ r : Ref, r ≠ options →
      (s.world.setSuccess options (wrappedSuccess context method model options s)).options r
        = s.world.options r) ∧
    (s.world.setSuccess options (wrappedSuccess context method model options s)).models
      = s.world.models ∧
    ((∀ w : World, (env.modelSync model method model options w).2 = w) →
      ((cacheSuccess env context method model options).run s).2.world.options options
        = { s.world.options options with
            success := wrappedSuccess context method model options s } ∧
      (∀ r : Ref, r ≠ options →
        ((cacheSuccess env context method model options).run s).2.world.options r
          = s.world.options r) ∧
      ((cacheSuccess env context method model options).run s).2.world.models
        = s.world.models) ∧
    ((wrapSuccessWithCache context method model options).run s).2 = s ∧
    ((wrapErrorWithInvalidate context method model options).run s).2 = s := by
  rw [cacheSuccess_run]
  refine ⟨rfl, ?_, ?_, ?_, rfl, ?_, rfl, rfl⟩
  · simp [World.setSuccess]
  · simp [World.setSuccess]
  · intro r hr
    simp [World.setSuccess, hr]
  · intro hsync
    simp only [hsync]
    refine ⟨?_, ?_, rfl⟩
    · simp [World.setSuccess]
    · intro r hr
      simp [World.setSuccess, hr]

theorem cacheSuccess_frame_witness :
    (((cacheSuccess demoEnv 0 "read" 0 0).run demoState).2.world.options 0).error = .ext 8 ∧
    (((cacheSuccess demoEnv 0 "read" 0 0).run demoState).2.world.options 0).rest
      = [("parse", .bool true)] ∧
    (((cacheSuccess demoEnv 0 "read" 0 0).run demoState).2.world.options 0).success
      = .successWrapper 0 "read" 0 0 (.ext 7) :=
  have h := ((cacheSuccess_frame demoEnv 0 "read" 0 0 demoState).2.2.2.2.2.1 (fun _ => rfl)).1
  ⟨congrArg Options.error h, congrArg Options.rest h, congrArg Options.success h⟩

end Hoard
